import Mathlib

/-!
Verification development for the metta-nl-corpus generation/validation core
(`metta_nl_corpus/services/defs/transformation/assets.py` and the pieces of
`metta_nl_corpus/services/defs/ingestion/assets.py` it uses).

Text is embedded as `List Char` (`MStr`); Python string primitives used by the
source (`str.splitlines`, `str.strip`, `in`, `str.startswith`, slicing) are
given executable models restricted to the `\n` line separator and ASCII
whitespace, which is the alphabet the source manipulates.  External
capabilities (the OpenAI / Ollama chat endpoints, the hyperon reasoner, the
pandera schema validator, the on-disk parquet store) are passed in as explicit
oracle parameters, mirroring the capability boundaries in the source; a Python
exception is modelled as an `Except` error value.
-/

/-- Text, embedded as a list of characters. -/
abbrev MStr := List Char

/-- Convert a Lean string literal into the embedded text type. -/
def strToM (s : String) : MStr := s.data

/-- A raised Python exception (carrying its message). -/
structure PyError where
  msg : String
deriving DecidableEq, Repr

instance {e a : Type} [DecidableEq e] [DecidableEq a] : DecidableEq (Except e a) := fun x y =>
  match x, y with
  | .error u, .error v =>
    if h : u = v then .isTrue (by rw [h]) else .isFalse (by intro hc; cases hc; exact h rfl)
  | .ok u, .ok v =>
    if h : u = v then .isTrue (by rw [h]) else .isFalse (by intro hc; cases hc; exact h rfl)
  | .error _, .ok _ => .isFalse (by intro hc; cases hc)
  | .ok _, .error _ => .isFalse (by intro hc; cases hc)

/-- The line-boundary characters of Python `str.splitlines`: LF, VT, FF, CR,
FS, GS, RS, NEL, LINE SEPARATOR and PARAGRAPH SEPARATOR (code points 0x0a,
0x0b, 0x0c, 0x0d, 0x1c, 0x1d, 0x1e, 0x85, 0x2028, 0x2029). -/
def isLineBoundary (c : Char) : Bool :=
  let n := c.toNat
  decide (n = 10 ∨ n = 11 ∨ n = 12 ∨ n = 13 ∨ n = 28 ∨ n = 29 ∨ n = 30 ∨
    n = 133 ∨ n = 8232 ∨ n = 8233)

/-- Collapse each CRLF pair `\r\n` into a single `\n`, scanning left to
right: `str.splitlines` consumes the pair as one line boundary, and after
this normalization every remaining line-boundary character stands for
exactly one boundary. -/
def normalizeCrlf : MStr → List Char
  | [] => []
  | '\r' :: '\n' :: cs => '\n' :: normalizeCrlf cs
  | c :: cs => c :: normalizeCrlf cs

/-- Split at every line-boundary character (each one a separate boundary):
`""` yields no lines, and a trailing boundary does not produce a final empty
line. -/
def splitBoundaries : MStr → List MStr
  | [] => []
  | c :: cs =>
    if isLineBoundary c then [] :: splitBoundaries cs
    else
      match splitBoundaries cs with
      | [] => [[c]]
      | h :: t => (c :: h) :: t

/-- Model of Python `str.splitlines`: the CRLF pair counts as one boundary
(collapsed by `normalizeCrlf`), every other line-boundary character as one
boundary each. -/
def pySplitlines (s : MStr) : List MStr :=
  splitBoundaries (normalizeCrlf s)

/-- Split on `\n` keeping a (possibly empty) final piece; always nonempty.
This is how the lines of the body of a fenced block appear inside a larger
text. -/
def splitOnNl : MStr → List MStr
  | [] => [[]]
  | c :: cs =>
    if c = '\n' then [] :: splitOnNl cs
    else
      match splitOnNl cs with
      | [] => [[c]]
      | h :: t => (c :: h) :: t

/-- Join lines with `\n`, the model of `"\n".join(lines)`. -/
def joinNl : List MStr → MStr
  | [] => []
  | [l] => l
  | l :: ls => l ++ '\n' :: joinNl ls

/-- The whitespace characters stripped by Python `str.strip()`, i.e. the
code points on which `str.isspace` holds (0x09-0x0d, 0x1c-0x1f, space, NEL,
NBSP, OGHAM SPACE MARK, 0x2000-0x200a, LINE/PARAGRAPH SEPARATOR, NARROW
NBSP, MEDIUM MATHEMATICAL SPACE, IDEOGRAPHIC SPACE). -/
def isPySpace (c : Char) : Bool :=
  let n := c.toNat
  decide ((9 ≤ n ∧ n ≤ 13) ∨ (28 ≤ n ∧ n ≤ 32) ∨ n = 133 ∨ n = 160 ∨
    n = 5760 ∨ (8192 ≤ n ∧ n ≤ 8202) ∨ n = 8232 ∨ n = 8233 ∨ n = 8239 ∨
    n = 8287 ∨ n = 12288)

/-- Model of Python `str.strip()`. -/
def pyStrip (s : MStr) : MStr :=
  ((s.dropWhile isPySpace).reverse.dropWhile isPySpace).reverse

/-- Model of Python `s.startswith(pre)`. -/
def pyStartswith : MStr → MStr → Bool
  | _, [] => true
  | [], _ :: _ => false
  | c :: cs, p :: ps => decide (c = p) && pyStartswith cs ps

/-- Model of Python `pat in s` (substring containment). -/
def pyContains : MStr → MStr → Bool
  | [], pat => pyStartswith [] pat
  | c :: cs, pat => pyStartswith (c :: cs) pat || pyContains cs pat

/-- The backquote character (written by code point to keep source clean). -/
def backquote : Char := Char.ofNat 96

/-- The fenced-code-block marker three-backquote string. -/
def fenceMark : MStr := [backquote, backquote, backquote]

/-- Whether a line contains the fenced-code-block marker, the test
`"```" in line` used by `parse_metta_expression`. -/
def hasFence (l : MStr) : Bool := pyContains l fenceMark

/-- Whether the first non-whitespace character of a line is `;`, i.e. the
line is a MeTTa comment line as described by the spec and the repository's
test-suite. -/
def isCommentLine (l : MStr) : Bool :=
  match l.dropWhile isPySpace with
  | c :: _ => decide (c = ';')
  | [] => false

/-- `GenerationFailureReason` from `transformation/assets.py`. -/
inductive GenerationFailureReason where
  | NO_CONTENT
  | EMPTY_EXPRESSION
deriving DecidableEq, Repr

/-- `GenerationResult` from `transformation/assets.py`. -/
structure GenerationResult where
  expression : Option MStr
  failure_reason : Option GenerationFailureReason
deriving DecidableEq, Repr

/-- `parse_metta_expression` from `transformation/assets.py` lines 43-52.
Splits into lines, drops a first line containing a fence marker and a last
line containing a fence marker, joins and strips.  Indexing `lines[-1]` on
the list left empty after dropping the first line raises `IndexError`, which
is modelled by the error branch. -/
def parse_metta_expression (expression : MStr) : Except PyError MStr :=
  let expression_lines := pySplitlines expression
  if 1 ≤ expression_lines.length then
    let lines1 :=
      if hasFence expression_lines.headI then expression_lines.tail
      else expression_lines
    match lines1.getLast? with
    | none => .error ⟨"IndexError: list index out of range"⟩
    | some last =>
      let lines2 := if hasFence last then lines1.dropLast else lines1
      .ok (pyStrip (joinNl lines2))
  else
    .ok expression

/-- `extract_metta_expression` from `transformation/assets.py` lines 55-67.
`if not content` covers both absent content and the empty string. -/
def extract_metta_expression (content : Option MStr) :
    Except PyError GenerationResult :=
  match content with
  | none => .ok ⟨none, some .NO_CONTENT⟩
  | some c =>
    if c = [] then .ok ⟨none, some .NO_CONTENT⟩
    else
      match parse_metta_expression c with
      | .error e => .error e
      | .ok trimmed =>
        if trimmed = [] then .ok ⟨none, some .EMPTY_EXPRESSION⟩
        else .ok ⟨some trimmed, none⟩

/-- The user-message template shared by both generation back ends
(`transformation/assets.py` lines 73-75 and 103-105). -/
def userContentTemplate (text : MStr) : MStr :=
  strToM "Turn the following statement into MeTTa expressions that represents the same meaning: \"" ++
    text ++
    strToM "\". Return only valid MeTTa expressions with no comments."

/-- Appending the optional corrective context to a prompt:
`if additional_context: s = f"{s}\n\n{additional_context}"`.  Python truthiness
also skips an empty string. -/
def withAdditionalContext (base : MStr) (additional_context : Option MStr) : MStr :=
  match additional_context with
  | none => base
  | some c => if c = [] then base else base ++ strToM "\n\n" ++ c

/-- Python `repr` of a string (quote selection and the escapes relevant to
the texts handled by the source; other characters render verbatim), used to
model the f-string `{premise=}` / `{hypothesis=}` interpolations. -/
def pyReprStr (s : MStr) : MStr :=
  let sq : Char := Char.ofNat 39
  let dq : Char := Char.ofNat 34
  let bs : Char := Char.ofNat 92
  let q : Char := if s.contains sq && !(s.contains dq) then dq else sq
  let escape : Char → MStr := fun c =>
    if c = bs then [bs, bs]
    else if c = q then [bs, q]
    else if c = '\n' then [bs, 'n']
    else if c = '\r' then [bs, 'r']
    else if c = '\t' then [bs, 't']
    else [c]
  q :: (s.map escape).flatten ++ [q]

/-- Python `str()` of an optional string, as interpolated into f-strings:
`None` renders as `"None"`. -/
def pyStrOpt : Option MStr → MStr
  | none => strToM "None"
  | some s => s

/-- The hypothesis-generation context f-string built in `generate_and_validate`
(`transformation/assets.py` lines 213-217). -/
def mettaHypothesisContext (premise hypothesis pExpr : MStr) : MStr :=
  strToM "\n        Previously we processed the premise: premise=" ++
    pyReprStr premise ++
    strToM " and generated the following MeTTa expression: " ++ pExpr ++
    strToM ".\n        Now we need to process the hypothesis: hypothesis=" ++
    pyReprStr hypothesis ++
    strToM " and generate a MeTTa expression that can be validated as a contradiction or\n        not a contradiction with the previously generated MeTTa expression.\n        "

/-- The corrective context built after a failed validation
(`transformation/assets.py` line 245). -/
def retryAdditionalContext (premise hypothesis : MStr)
    (lastP lastH : Option MStr) : MStr :=
  strToM "The previous result was not a contradiction as expected. Please ensure the generated MeTTa expressions represent a contradiction. Here are the previous results: premise=" ++
    pyReprStr premise ++ strToM " hypothesis=" ++ pyReprStr hypothesis ++
    strToM " metta_premise=" ++ pyStrOpt lastP ++
    strToM " metta_hypothesis=" ++ pyStrOpt lastH

/-- The provider capability behind a generation back end: given its private
state, the model identifier and the user message, it either returns the
(optional) message content or raises.  State threading makes the number and
order of provider invocations observable. -/
abbrev Provider (σ : Type) :=
  σ → MStr → MStr → Except PyError (Option MStr) × σ

/-- `openai_generate_from_template` (`transformation/assets.py` lines 70-97).
The whole client construction / API call sits in a `try` whose `except`
returns a `no_content` result; the final `extract_metta_expression` call is
outside the `try`, so an extraction error propagates. -/
def openai_generate_from_template {σ : Type} (provider : Provider σ) (s : σ)
    (text model : MStr) (additional_context : Option MStr) :
    Except PyError GenerationResult × σ :=
  let user_content := withAdditionalContext (userContentTemplate text) additional_context
  match provider s model user_content with
  | (.error _e, s') => (.ok ⟨none, some .NO_CONTENT⟩, s')
  | (.ok content, s') => (extract_metta_expression content, s')

/-- `ollama_generate_from_template` (`transformation/assets.py` lines
100-124).  The `chat` call is not wrapped in any `try`, so a provider
exception propagates to the caller, as does an extraction error. -/
def ollama_generate_from_template {σ : Type} (provider : Provider σ) (s : σ)
    (text model : MStr) (additional_context : Option MStr) :
    Except PyError GenerationResult × σ :=
  let user_content := withAdditionalContext (userContentTemplate text) additional_context
  match provider s model user_content with
  | (.error e, s') => (.error e, s')
  | (.ok content, s') => (extract_metta_expression content, s')

/-- `RelationKind.CONTRADICTION` from `ingestion/assets.py` line 63 (the
string value is spelled `"contradication"` there; labels in the dataset are
produced from the same enum, so comparisons are internally consistent). -/
def RelationKind.CONTRADICTION : MStr := strToM "contradication"

/-- `validate_expressions_are_contradictory` (`transformation/assets.py`
lines 127-171).  `check` is the opaque hyperon capability: loading the
background space, running both expressions and querying for a truth/falsity
intersection; an exception from it is caught and treated as `false`.
`if not metta_premise or not metta_hypothesis` is Python truthiness, so an
absent or empty expression short-circuits to `false`. -/
def validate_expressions_are_contradictory
    (check : MStr → MStr → Except PyError Bool)
    (metta_premise metta_hypothesis : Option MStr) : Bool :=
  match metta_premise, metta_hypothesis with
  | some p, some h =>
    if p = [] || h = [] then false
    else
      match check p h with
      | .error _ => false
      | .ok b => b
  | _, _ => false

/-- The retry loop of `generate_and_validate` (`transformation/assets.py`
lines 197-248), by recursion on the remaining attempts.  `gen` is the
selected back end (taking state, text, model, optional context); a raised
exception aborts the whole call.  A premise result whose expression is
absent or empty (`if not ...expression`) consumes the attempt without a
hypothesis call and without touching the recorded last expressions. -/
def generate_and_validate_loop {σ : Type}
    (gen : σ → MStr → MStr → Option MStr → Except PyError GenerationResult × σ)
    (check : MStr → MStr → Except PyError Bool)
    (premise hypothesis label annotation_model : MStr) :
    Nat → Option MStr → Option MStr → Option MStr → σ →
      Except PyError (Option MStr × Option MStr × Bool) × σ
  | 0, _additional_context, lastP, lastH, s => (.ok (lastP, lastH, false), s)
  | n + 1, additional_context, lastP, lastH, s =>
    match gen s premise annotation_model additional_context with
    | (.error e, s1) => (.error e, s1)
    | (.ok premise_result, s1) =>
      match premise_result.expression with
      | none =>
        generate_and_validate_loop gen check premise hypothesis label
          annotation_model n additional_context lastP lastH s1
      | some pExpr =>
        if pExpr = [] then
          generate_and_validate_loop gen check premise hypothesis label
            annotation_model n additional_context lastP lastH s1
        else
          let hctx :=
            withAdditionalContext
              (mettaHypothesisContext premise hypothesis pExpr) additional_context
          match gen s1 hypothesis annotation_model (some hctx) with
          | (.error e, s2) => (.error e, s2)
          | (.ok hypothesis_result, s2) =>
            let lastP' : Option MStr := some pExpr
            let lastH' := hypothesis_result.expression
            if (validate_expressions_are_contradictory check lastP' lastH' &&
                  decide (label = RelationKind.CONTRADICTION)) ||
                decide (label ≠ RelationKind.CONTRADICTION) then
              (.ok (lastP', lastH', true), s2)
            else
              generate_and_validate_loop gen check premise hypothesis label
                annotation_model n
                (some (retryAdditionalContext premise hypothesis lastP' lastH'))
                lastP' lastH' s2

/-- `generate_and_validate` (`transformation/assets.py` lines 174-248):
selects the back end from the model-name prefix (`gpt` / `o1` route to the
OpenAI variant) and runs the bounded retry loop starting from no context and
no recorded expressions. -/
def generate_and_validate {σ : Type}
    (openaiProvider ollamaProvider : Provider σ)
    (check : MStr → MStr → Except PyError Bool)
    (premise hypothesis label annotation_model : MStr)
    (max_attempts : Nat) (s : σ) :
    Except PyError (Option MStr × Option MStr × Bool) × σ :=
  let is_openai :=
    pyStartswith annotation_model (strToM "gpt") ||
      pyStartswith annotation_model (strToM "o1")
  let generate_fn :=
    if is_openai then
      fun st text model ctx => openai_generate_from_template openaiProvider st text model ctx
    else
      fun st text model ctx => ollama_generate_from_template ollamaProvider st text model ctx
  generate_and_validate_loop generate_fn check premise hypothesis label
    annotation_model max_attempts none none none s

/-- Wrap a provider with an invocation counter, to observe how many times
the generation back end reaches its provider. -/
def countingProvider {σ : Type} (provider : Provider σ) : Provider (Nat × σ) :=
  fun ns model user_content =>
    let (r, s') := provider ns.2 model user_content
    (r, (ns.1 + 1, s'))

/-- Model of Python `range(0, n, b)` for a positive step `b`: the start
offsets of the consecutive batches. -/
def pyRange (n b : Nat) : List Nat :=
  (List.range ((n + b - 1) / b)).map (fun j => j * b)

/-- Model of the Python slice `l[i:j]` for nonnegative bounds (empty when
`j ≤ i`, clamped at the end of the list). -/
def pySlice {α : Type} (l : List α) (i j : Nat) : List α :=
  (l.drop i).take (j - i)

/-- `process_in_batches` (`transformation/assets.py` lines 251-286): truncate
to `subset_size`, then walk the start offsets `range(0, len, batch_size)` and
apply `process_fn` to every row of each slice
`rows_to_process[i : min(subset_size, i + batch_size)]`, accumulating the
results in order.  Python `range` raises `ValueError` on a zero step, modelled
by the error branch; the `tqdm` wrapper only displays progress and is not
modelled. -/
def process_in_batches {α β : Type} (rows : List α) (process_fn : α → β)
    (subset_size batch_size : Nat) : Except PyError (List β) :=
  if batch_size = 0 then
    .error ⟨"ValueError: range() arg 3 must not be zero"⟩
  else
    let rows_to_process := rows.take subset_size
    .ok ((pyRange rows_to_process.length batch_size).foldl
      (fun processed_rows i =>
        processed_rows ++
          (pySlice rows_to_process i (min subset_size (i + batch_size))).map process_fn)
      [])

/-- One row of `preprocessed_training_data` as consumed by the annotation
asset: the stable `index` added by `with_row_index`, the two text fields and
the string label. -/
structure SourceRow where
  index : Nat
  premise : MStr
  hypothesis : MStr
  label : MStr
deriving DecidableEq, Repr

/-- One persisted row of the annotation store, per the `Annotations` schema
of `ingestion/assets.py` (the generated columns and the stamped data
version). -/
structure AnnotationRow where
  index : Nat
  premise : MStr
  hypothesis : MStr
  label : MStr
  metta_premise : Option MStr
  metta_hypothesis : Option MStr
  is_valid : Bool
  version : MStr
deriving DecidableEq, Repr

/-- `DATA_VERSION` from `ingestion/assets.py`. -/
def DATA_VERSION : MStr := strToM "0.0.1"

/-- Collect a list of fallible results, propagating the first raised
exception (a raising `process_fn` aborts the whole batch). -/
def collectExcept {β : Type} : List (Except PyError β) → Except PyError (List β)
  | [] => .ok []
  | .error e :: _ => .error e
  | .ok b :: rest =>
    match collectExcept rest with
    | .error e => .error e
    | .ok bs => .ok (b :: bs)

/-- `data_annotations` (`transformation/assets.py` lines 289-369) over
explicit capabilities: the two providers (deterministic here, i.e. state type
`Unit`), the reasoner `check`, and `validateSchema`, the external pandera
`Annotations.validate` capability which either raises a schema error or
passes the rows through.  `store` is the content of the parquet file at
`ANNOTATIONS_PATH`; the function returns the asset result together with the
file content after the run (`write_parquet` happens only on the success
path).  The polars steps are modelled row-wise: `filter ~is_in` keeps the
source rows whose index is absent from the cached annotations,
`head(subset_size)` truncates, `with_columns` pairs each kept row
positionally with its generated columns, and `pl.concat(..., how="align")`
of the two equal-schema frames is the row union. -/
def data_annotations
    (openaiProvider ollamaProvider : Provider Unit)
    (check : MStr → MStr → Except PyError Bool)
    (validateSchema : List AnnotationRow → Option PyError)
    (subset_size batch_size : Nat) (annotation_model : MStr)
    (preprocessed_training_data : List SourceRow)
    (cached_annotations : List AnnotationRow)
    (store : List AnnotationRow) :
    Except PyError (List AnnotationRow) × List AnnotationRow :=
  let unannotated_data_points :=
    preprocessed_training_data.filter
      (fun r => decide (r.index ∉ cached_annotations.map AnnotationRow.index))
  let process_row : SourceRow → Except PyError (Option MStr × Option MStr × Bool) :=
    fun row =>
      (generate_and_validate openaiProvider ollamaProvider check
        row.premise row.hypothesis row.label annotation_model 3 ()).1
  match process_in_batches unannotated_data_points process_row subset_size batch_size with
  | .error e => (.error e, store)
  | .ok processed_fallible =>
    match collectExcept processed_fallible with
    | .error e => (.error e, store)
    | .ok processed_rows =>
      let annotated_data_points :=
        List.zipWith
          (fun (r : SourceRow) (g : Option MStr × Option MStr × Bool) =>
            AnnotationRow.mk r.index r.premise r.hypothesis r.label
              g.1 g.2.1 g.2.2 DATA_VERSION)
          (unannotated_data_points.take subset_size) processed_rows
      match validateSchema annotated_data_points with
      | some e => (.error e, store)
      | none =>
        let new_result := cached_annotations ++ annotated_data_points
        (.ok new_result, new_result)

/-! ### Supporting lemmas about the line primitives -/

theorem normalizeCrlf_cons (c : Char) (cs : MStr) (hc : c ≠ '\r') :
    normalizeCrlf (c :: cs) = c :: normalizeCrlf cs := by
  rw [normalizeCrlf.eq_def]
  split
  · rename_i heq
    exact absurd heq (by simp)
  · rename_i heq
    exact absurd (List.cons.inj heq).1 hc
  · rename_i heq
    obtain ⟨h1, h2⟩ := List.cons.inj heq
    rw [h1, h2]

theorem normalizeCrlf_append (A r : MStr) (hA : '\r' ∉ A) :
    normalizeCrlf (A ++ r) = A ++ normalizeCrlf r := by
  induction A with
  | nil => rfl
  | cons c cs ih =>
    have hc : c ≠ '\r' := fun h => hA (h ▸ List.mem_cons_self c cs)
    rw [List.cons_append, normalizeCrlf_cons c _ hc,
      ih (fun h => hA (List.mem_cons_of_mem c h)), List.cons_append]

theorem normalizeCrlf_of_no_cr (A : MStr) (hA : '\r' ∉ A) :
    normalizeCrlf A = A := by
  have h := normalizeCrlf_append A [] hA
  simp only [List.append_nil,
    show normalizeCrlf ([] : MStr) = [] from rfl] at h
  exact h

theorem splitBoundaries_boundary_cons (c : Char) (r : MStr)
    (hb : isLineBoundary c = true) :
    splitBoundaries (c :: r) = [] :: splitBoundaries r := by
  simp only [splitBoundaries]
  rw [if_pos hb]

theorem splitBoundaries_other_cons (c : Char) (r : MStr)
    (hb : isLineBoundary c = false) :
    splitBoundaries (c :: r) =
      match splitBoundaries r with
      | [] => [[c]]
      | h :: t => (c :: h) :: t := by
  simp only [splitBoundaries]
  rw [if_neg (by rw [hb]; decide)]

theorem splitBoundaries_append_nl (A r : MStr)
    (hA : ∀ c ∈ A, isLineBoundary c = false) :
    splitBoundaries (A ++ '\n' :: r) = A :: splitBoundaries r := by
  induction A with
  | nil => exact splitBoundaries_boundary_cons '\n' r (by decide)
  | cons c cs ih =>
    have hc := hA c (List.mem_cons_self c cs)
    have ih' := ih (fun x hx => hA x (List.mem_cons_of_mem c hx))
    rw [List.cons_append, splitBoundaries_other_cons c _ hc, ih']

theorem not_cr_of_no_boundary {c : Char} (hb : isLineBoundary c = false) :
    c ≠ '\r' := fun h => by
  rw [h] at hb; exact absurd hb (by decide)

theorem pySplitlines_append_nl (A r : MStr)
    (hA : ∀ c ∈ A, isLineBoundary c = false) :
    pySplitlines (A ++ '\n' :: r) = A :: pySplitlines r := by
  have hcr : '\r' ∉ A := fun h => absurd (hA _ h) (by decide)
  simp only [pySplitlines]
  rw [normalizeCrlf_append A _ hcr, normalizeCrlf_cons '\n' _ (by decide),
    splitBoundaries_append_nl A _ hA]

theorem splitOnNl_ne_nil (T : MStr) : splitOnNl T ≠ [] := by
  cases T with
  | nil => simp [splitOnNl]
  | cons c cs =>
    simp only [splitOnNl]
    split
    · simp
    · cases h : splitOnNl cs <;> simp

theorem splitBoundaries_no_boundary (G : MStr)
    (hG : ∀ c ∈ G, isLineBoundary c = false) (hne : G ≠ []) :
    splitBoundaries G = [G] := by
  induction G with
  | nil => exact absurd rfl hne
  | cons c cs ih =>
    rw [splitBoundaries_other_cons c cs (hG c (List.mem_cons_self c cs))]
    cases hcs : cs with
    | nil => rfl
    | cons d ds =>
      have := ih (fun x hx => hG x (List.mem_cons_of_mem c hx)) (by simp [hcs])
      rw [hcs] at this
      rw [this]

theorem splitBoundaries_body (T G : MStr)
    (hG : ∀ c ∈ G, isLineBoundary c = false) (hne : G ≠ [])
    (hT : ∀ c ∈ T, isLineBoundary c = true → c = '\n') :
    splitBoundaries (T ++ '\n' :: G) = splitOnNl T ++ [G] := by
  induction T with
  | nil =>
    rw [List.nil_append, splitBoundaries_boundary_cons '\n' _ (by decide),
      splitBoundaries_no_boundary G hG hne]
    rfl
  | cons c cs ih =>
    have ih' := ih (fun x hx hb => hT x (List.mem_cons_of_mem c hx) hb)
    by_cases hc : c = '\n'
    · subst hc
      rw [List.cons_append, splitBoundaries_boundary_cons '\n' _ (by decide), ih']
      simp [splitOnNl]
    · have hcb : isLineBoundary c = false := by
        cases hb : isLineBoundary c with
        | false => rfl
        | true => exact absurd (hT c (List.mem_cons_self c cs) hb) hc
      rw [List.cons_append, splitBoundaries_other_cons c _ hcb, ih']
      rcases h : splitOnNl cs with _ | ⟨hd, tl⟩
      · exact absurd h (splitOnNl_ne_nil cs)
      · simp [splitOnNl, if_neg hc, h]

theorem pySplitlines_body (T G : MStr)
    (hG : ∀ c ∈ G, isLineBoundary c = false) (hne : G ≠ [])
    (hT : ∀ c ∈ T, isLineBoundary c = true → c = '\n') :
    pySplitlines (T ++ '\n' :: G) = splitOnNl T ++ [G] := by
  have hTr : '\r' ∉ T := fun h => by
    have hb : isLineBoundary '\r' = true := by decide
    exact absurd (hT _ h hb) (by decide)
  have hGr : '\r' ∉ G := fun h => absurd (hG _ h) (by decide)
  simp only [pySplitlines]
  rw [normalizeCrlf_append T _ hTr, normalizeCrlf_cons '\n' _ (by decide),
    normalizeCrlf_of_no_cr G hGr, splitBoundaries_body T G hG hne hT]

theorem joinNl_splitOnNl (T : MStr) : joinNl (splitOnNl T) = T := by
  induction T with
  | nil => simp [splitOnNl, joinNl]
  | cons c cs ih =>
    by_cases hc : c = '\n'
    · subst hc
      simp only [splitOnNl, if_pos rfl]
      rcases h : splitOnNl cs with _ | ⟨hd, tl⟩
      · exact absurd h (splitOnNl_ne_nil cs)
      · rw [h] at ih
        simp only [joinNl, List.nil_append]
        rw [ih]
    · simp only [splitOnNl, if_neg hc]
      rcases h : splitOnNl cs with _ | ⟨hd, tl⟩
      · exact absurd h (splitOnNl_ne_nil cs)
      · rw [h] at ih
        rcases tl with _ | ⟨x, xs⟩
        · simp only [joinNl] at ih ⊢
          rw [ih]
        · simp only [joinNl] at ih ⊢
          rw [List.cons_append, ih]

theorem pyStartswith_append (p r : MStr) : pyStartswith (p ++ r) p = true := by
  induction p with
  | nil => cases r <;> simp [pyStartswith]
  | cons c cs ih => simp [pyStartswith, ih]

theorem pyContains_prefix (s pat : MStr) (h : pyStartswith s pat = true) :
    pyContains s pat = true := by
  cases s with
  | nil => simpa [pyContains] using h
  | cons c cs => simp [pyContains, h]

theorem hasFence_of_fence_prefix (rest : MStr) :
    hasFence (fenceMark ++ rest) = true := by
  exact pyContains_prefix _ _ (pyStartswith_append fenceMark rest)

theorem fenceMark_no_boundary : ∀ c ∈ fenceMark, isLineBoundary c = false := by
  decide

/-! ### C1 and C2: behaviour of the expression extractor on comment lines
and on a lone fence line -/

/-- C1: the claim states that every line whose first non-whitespace character
is `;` is removed by extraction.  The code performs no comment filtering at
all: on the comment-bearing input of the repository test
`test_removes_comments_without_code_blocks` (which expects the comment lines
to be dropped), `parse_metta_expression` returns the input unchanged,
comment lines included.  The second conjunct records what the comment-free
line sequence demanded by the claim and the test would have been, and that
it differs. -/
theorem parse_keeps_comment_lines :
    parse_metta_expression
        (strToM "; This is a comment\n(children smiling)\n; Another comment\n(children waving)") =
      Except.ok
        (strToM "; This is a comment\n(children smiling)\n; Another comment\n(children waving)") ∧
    (pySplitlines
        (strToM "; This is a comment\n(children smiling)\n; Another comment\n(children waving)")).filter
        (fun l => !(isCommentLine l)) =
      pySplitlines (strToM "(children smiling)\n(children waving)") ∧
    strToM "; This is a comment\n(children smiling)\n; Another comment\n(children waving)" ≠
      strToM "(children smiling)\n(children waving)" := by
  refine ⟨by decide, by decide, by decide⟩

/-- C2: the claim states that `extract` never raises and in particular that a
single-line input consisting only of a fence marker yields a typed outcome.
In the code, after the first line (which contains the marker) is dropped,
`expression_lines[-1]` indexes an empty list and raises `IndexError`, so both
`"```"` and `"```metta"` crash the extractor. -/
theorem extract_crashes_on_lone_fence :
    extract_metta_expression (some (strToM "```")) =
      Except.error ⟨"IndexError: list index out of range"⟩ ∧
    extract_metta_expression (some (strToM "```metta")) =
      Except.error ⟨"IndexError: list index out of range"⟩ := by
  refine ⟨by decide, by decide⟩

/-! ### C9: fence stripping -/

/-- C9 counterexample: two bodies `T` with no comment-marker lines on which
the claim fails.  For `T = ""` extraction yields an `empty_expression`
failure with an absent expression rather than the expression `T.strip() =
""`.  For `T = "(a)\r\n(b)"` the CRLF pair is a line boundary of
`str.splitlines`, so the body is re-joined with `\n` and the extracted
expression `"(a)\n(b)"` differs from `T.strip() = "(a)\r\n(b)"`. -/
theorem fence_strip_counterexample :
    (extract_metta_expression (some (strToM "```lang\n\n```")) =
        Except.ok ⟨none, some GenerationFailureReason.EMPTY_EXPRESSION⟩ ∧
      extract_metta_expression (some (strToM "```lang\n\n```")) ≠
        Except.ok ⟨some (pyStrip (strToM "")), none⟩) ∧
    (extract_metta_expression (some (strToM "```lang\n(a)\r\n(b)\n```")) =
        Except.ok ⟨some (strToM "(a)\n(b)"), none⟩ ∧
      strToM "(a)\n(b)" ≠ pyStrip (strToM "(a)\r\n(b)")) := by
  refine ⟨⟨by decide, by decide⟩, ⟨by decide, by decide⟩⟩

/-- C9 (amended): for every language tag free of line-boundary characters
and every body `T` containing no comment-marker lines, whose only
line-boundary characters are `\n`, and whose `strip()` is nonempty,
extracting the fenced wrapping yields an outcome whose expression equals
`T.strip()` — the fence lines are dropped and the remainder is
whitespace-stripped.  (A body with another boundary, e.g. a CRLF pair, is
re-joined with `\n` and therefore changed; an all-whitespace body yields an
`empty_expression` failure instead.) -/
theorem fence_strip_extracts_body (lang T : MStr)
    (hlang : ∀ c ∈ lang, isLineBoundary c = false)
    (hTb : ∀ c ∈ T, isLineBoundary c = true → c = '\n')
    (hT : pyStrip T ≠ [])
    (_hcomment : ∀ l ∈ splitOnNl T, isCommentLine l = false) :
    extract_metta_expression
        (some (fenceMark ++ lang ++ '\n' :: (T ++ '\n' :: fenceMark))) =
      Except.ok ⟨some (pyStrip T), none⟩ := by
  have hA : ∀ c ∈ fenceMark ++ lang, isLineBoundary c = false := by
    intro c hc
    rcases List.mem_append.mp hc with hc | hc
    · exact fenceMark_no_boundary c hc
    · exact hlang c hc
  have hsplit :
      pySplitlines ((fenceMark ++ lang) ++ '\n' :: (T ++ '\n' :: fenceMark)) =
        (fenceMark ++ lang) :: (splitOnNl T ++ [fenceMark]) := by
    rw [pySplitlines_append_nl _ _ hA,
      pySplitlines_body T fenceMark fenceMark_no_boundary (by decide) hTb]
  have hparse :
      parse_metta_expression (fenceMark ++ lang ++ '\n' :: (T ++ '\n' :: fenceMark)) =
        Except.ok (pyStrip T) := by
    have hassoc :
        fenceMark ++ lang ++ '\n' :: (T ++ '\n' :: fenceMark) =
          (fenceMark ++ lang) ++ '\n' :: (T ++ '\n' :: fenceMark) := by
      simp [List.append_assoc]
    rw [parse_metta_expression, hassoc, hsplit]
    simp only [List.length_cons, List.headI, List.tail,
      hasFence_of_fence_prefix lang, if_true, if_pos (by omega : 1 ≤ (splitOnNl T ++ [fenceMark]).length + 1)]
    rw [List.getLast?_concat]
    have hfence : hasFence fenceMark = true := by
      have := hasFence_of_fence_prefix ([] : MStr)
      simpa using this
    simp only [hfence, if_true, List.dropLast_concat]
    rw [joinNl_splitOnNl]
  have hne : fenceMark ++ lang ++ '\n' :: (T ++ '\n' :: fenceMark) ≠ [] := by
    simp [fenceMark]
  rw [extract_metta_expression]
  simp only [if_neg hne, hparse, if_neg hT]

/-- C9 witness: instantiation at a labeled fence around `"(a b)"`. -/
theorem fence_strip_extracts_body_witness :
    extract_metta_expression
        (some (fenceMark ++ strToM "metta" ++ '\n' :: (strToM "(a b)" ++ '\n' :: fenceMark))) =
      Except.ok ⟨some (pyStrip (strToM "(a b)")), none⟩ :=
  fence_strip_extracts_body (strToM "metta") (strToM "(a b)")
    (by decide) (by decide) (by decide) (by decide)

/-! ### C3: normalization of provider failures at the backend boundary -/

/-- C3 counterexample: the Ollama variant has no `try`/`except` around the
`chat` call, so a provider failure (here a timeout exception) propagates out
of the backend instead of becoming a `no_content` outcome. -/
theorem ollama_propagates_provider_error :
    ollama_generate_from_template
        (fun (_ : Unit) _ _ => (Except.error ⟨"ReadTimeout"⟩, ()))
        () (strToM "A cat sleeps") (strToM "gemma3:1b") none =
      (Except.error ⟨"ReadTimeout"⟩, ()) := rfl

/-- C3 (amended): an exception raised by the provider during the model call
is normalized to a `no_content` outcome by the OpenAI variant but propagated
by the Ollama variant; an empty payload (`content = None`) is normalized to
`no_content` by both variants. -/
theorem backend_provider_failure_normalization {σ : Type}
    (provider : Provider σ) (s : σ) (text model : MStr) (ctx : Option MStr) :
    (∀ e s',
      provider s model (withAdditionalContext (userContentTemplate text) ctx) =
          (.error e, s') →
      openai_generate_from_template provider s text model ctx =
          (.ok ⟨none, some .NO_CONTENT⟩, s') ∧
      ollama_generate_from_template provider s text model ctx =
          (.error e, s')) ∧
    (∀ s',
      provider s model (withAdditionalContext (userContentTemplate text) ctx) =
          (.ok none, s') →
      openai_generate_from_template provider s text model ctx =
          (.ok ⟨none, some .NO_CONTENT⟩, s') ∧
      ollama_generate_from_template provider s text model ctx =
          (.ok ⟨none, some .NO_CONTENT⟩, s')) := by
  constructor
  · intro e s' h
    constructor <;>
      simp [openai_generate_from_template, ollama_generate_from_template, h]
  · intro s' h
    constructor <;>
      simp [openai_generate_from_template, ollama_generate_from_template, h,
        extract_metta_expression]

/-- C3 witness: a provider that always times out. -/
theorem backend_provider_failure_normalization_witness :
    openai_generate_from_template
        (fun (_ : Unit) _ _ => (Except.error ⟨"timeout"⟩, ()))
        () (strToM "s") (strToM "m") none =
      (Except.ok ⟨none, some .NO_CONTENT⟩, ()) ∧
    ollama_generate_from_template
        (fun (_ : Unit) _ _ => (Except.error ⟨"timeout"⟩, ()))
        () (strToM "s") (strToM "m") none =
      (Except.error ⟨"timeout"⟩, ()) :=
  (backend_provider_failure_normalization
      (fun (_ : Unit) _ _ => (Except.error ⟨"timeout"⟩, ()))
      () (strToM "s") (strToM "m") none).1 ⟨"timeout"⟩ () rfl

/-! ### Supporting lemmas about the retry orchestrator -/

theorem validate_always_false (check : MStr → MStr → Except PyError Bool)
    (hch : ∀ p h, check p h = Except.ok false) (p h : Option MStr) :
    validate_expressions_are_contradictory check p h = false := by
  rcases p with _ | p <;> rcases h with _ | h <;>
    simp [validate_expressions_are_contradictory, hch]

theorem loop_never_valid {σ : Type}
    (gen : σ → MStr → MStr → Option MStr → Except PyError GenerationResult × σ)
    (check : MStr → MStr → Except PyError Bool)
    (prem hyp model : MStr)
    (hv : ∀ p h, validate_expressions_are_contradictory check p h = false) :
    ∀ (n : Nat) (ctx lastP lastH : Option MStr) (s : σ) (p h : Option MStr),
      (generate_and_validate_loop gen check prem hyp RelationKind.CONTRADICTION
          model n ctx lastP lastH s).1 ≠ Except.ok (p, h, true) := by
  intro n
  induction n with
  | zero =>
    intro ctx lastP lastH s p h
    simp [generate_and_validate_loop]
  | succ n ih =>
    intro ctx lastP lastH s p h
    rcases hg : gen s prem model ctx with ⟨r1, s1⟩
    rcases r1 with e | pres
    · simp [generate_and_validate_loop, hg]
    · rcases hpe : pres.expression with _ | pExpr
      · simp only [generate_and_validate_loop, hg, hpe]
        exact ih ctx lastP lastH s1 p h
      · by_cases hemp : pExpr = []
        · simp only [generate_and_validate_loop, hg, hpe, if_pos hemp]
          exact ih ctx lastP lastH s1 p h
        · rcases hg2 : gen s1 hyp model
              (some (withAdditionalContext
                (mettaHypothesisContext prem hyp pExpr) ctx)) with ⟨r2, s2⟩
          rcases r2 with e2 | hres
          · simp [generate_and_validate_loop, hg, hpe, if_neg hemp, hg2]
          · simp only [generate_and_validate_loop, hg, hpe, if_neg hemp, hg2, hv,
              Bool.false_and, Bool.false_or, ne_eq, not_true_eq_false,
              decide_False, if_false]
            exact ih _ _ _ s2 p h

theorem loop_accepts_first_success {σ : Type}
    (gen : σ → MStr → MStr → Option MStr → Except PyError GenerationResult × σ)
    (check : MStr → MStr → Except PyError Bool)
    (prem hyp label model : MStr)
    (hlabel : label ≠ RelationKind.CONTRADICTION)
    (n : Nat) (ctx lastP lastH : Option MStr) (s s1 s2 : σ)
    (pres hres : GenerationResult) (e : MStr)
    (hg : gen s prem model ctx = (.ok pres, s1))
    (hpe : pres.expression = some e) (hne : e ≠ [])
    (hg2 : gen s1 hyp model
        (some (withAdditionalContext (mettaHypothesisContext prem hyp e) ctx)) =
      (.ok hres, s2)) :
    generate_and_validate_loop gen check prem hyp label model (n + 1)
        ctx lastP lastH s =
      (.ok (some e, hres.expression, true), s2) := by
  simp only [generate_and_validate_loop, hg, hpe, if_neg hne, hg2, hlabel, ne_eq,
    not_false_eq_true, decide_True, Bool.or_true, if_true]

/-! ### C4: the acceptance rule of the retry orchestrator -/

/-- C4: acceptance behaviour of `generate_and_validate`.  With a validator
whose reasoner always answers `false`: (1) under the contradiction label the
orchestrator can never return `is_valid = true` (so it exhausts all attempts
and ends with `is_valid = false`); (2) under any other label it accepts on
the first attempt whose premise generation succeeds, returning
`is_valid = true` — the acceptance condition is
`(validator ∧ label = contradiction) ∨ label ≠ contradiction`. -/
theorem genval_acceptance_rule {σ : Type}
    (openaiProvider ollamaProvider : Provider σ)
    (check : MStr → MStr → Except PyError Bool)
    (premise hypothesis annotation_model : MStr) (k : Nat) (s : σ)
    (hcheck : ∀ p h, check p h = Except.ok false) :
    (∀ p h,
      (generate_and_validate openaiProvider ollamaProvider check premise hypothesis
          RelationKind.CONTRADICTION annotation_model k s).1 ≠
        Except.ok (p, h, true)) ∧
    (∀ (label : MStr) (k' : Nat) (pres hres : GenerationResult) (e : MStr)
        (s1 s2 : σ),
      label ≠ RelationKind.CONTRADICTION →
      pyStartswith annotation_model (strToM "gpt") = false →
      pyStartswith annotation_model (strToM "o1") = false →
      ollama_generate_from_template ollamaProvider s premise annotation_model none =
          (.ok pres, s1) →
      pres.expression = some e → e ≠ [] →
      ollama_generate_from_template ollamaProvider s1 hypothesis annotation_model
          (some (mettaHypothesisContext premise hypothesis e)) = (.ok hres, s2) →
      generate_and_validate openaiProvider ollamaProvider check premise hypothesis
          label annotation_model (k' + 1) s =
        (.ok (some e, hres.expression, true), s2)) := by
  constructor
  · intro p h
    simp only [generate_and_validate]
    exact loop_never_valid _ check premise hypothesis annotation_model
      (validate_always_false check hcheck) k none none none s p h
  · intro label k' pres hres e s1 s2 hlabel hgpt ho1 hg hpe hne hg2
    simp only [generate_and_validate, hgpt, ho1, Bool.or_self, Bool.false_eq_true,
      if_false]
    exact loop_accepts_first_success _ check premise hypothesis label
      annotation_model hlabel k' none none none s s1 s2 pres hres e hg hpe hne hg2

/-- C4 witness: a reasoner stub answering `false`, the contradiction label
versus the label `"neutral"`, and an Ollama-routed model. -/
theorem genval_acceptance_rule_witness :
    ((generate_and_validate (fun (_ : Unit) _ _ => (Except.ok none, ()))
        (fun (_ : Unit) _ _ => (Except.ok (some (strToM "(a b)")), ()))
        (fun _ _ => Except.ok false) (strToM "p") (strToM "h")
        RelationKind.CONTRADICTION (strToM "gemma3:1b") 3 ()).1 ≠
      Except.ok (some (strToM "(a b)"), some (strToM "(a b)"), true)) ∧
    generate_and_validate (fun (_ : Unit) _ _ => (Except.ok none, ()))
        (fun (_ : Unit) _ _ => (Except.ok (some (strToM "(a b)")), ()))
        (fun _ _ => Except.ok false) (strToM "p") (strToM "h")
        (strToM "neutral") (strToM "gemma3:1b") 3 () =
      (Except.ok (some (strToM "(a b)"), some (strToM "(a b)"), true), ()) := by
  constructor
  · exact (genval_acceptance_rule _ _ _ (strToM "p") (strToM "h")
      (strToM "gemma3:1b") 3 () (fun _ _ => rfl)).1 _ _
  · exact (genval_acceptance_rule _ _ _ (strToM "p") (strToM "h")
      (strToM "gemma3:1b") 3 () (fun _ _ => rfl)).2 (strToM "neutral") 2
      ⟨some (strToM "(a b)"), none⟩ ⟨some (strToM "(a b)"), none⟩
      (strToM "(a b)") () () (by decide) (by decide) (by decide) rfl rfl
      (by decide) rfl

/-! ### C10: acceptance with a null hypothesis expression -/

/-- C10: for a row whose label is not the contradiction label, if premise
extraction yields an expression but hypothesis extraction fails, the attempt
is still accepted: `generate_and_validate` returns the premise expression, a
null hypothesis expression and `is_valid = true` (even though the validator,
given an absent hypothesis, reports `false`). -/
theorem genval_null_hypothesis_accepted {σ : Type}
    (openaiProvider ollamaProvider : Provider σ)
    (check : MStr → MStr → Except PyError Bool)
    (premise hypothesis label annotation_model : MStr) (k : Nat) (s s1 s2 : σ)
    (pres hres : GenerationResult) (e : MStr)
    (hlabel : label ≠ RelationKind.CONTRADICTION)
    (hgpt : pyStartswith annotation_model (strToM "gpt") = false)
    (ho1 : pyStartswith annotation_model (strToM "o1") = false)
    (hg : ollama_generate_from_template ollamaProvider s premise annotation_model none =
      (.ok pres, s1))
    (hpe : pres.expression = some e) (hne : e ≠ [])
    (hg2 : ollama_generate_from_template ollamaProvider s1 hypothesis annotation_model
        (some (mettaHypothesisContext premise hypothesis e)) = (.ok hres, s2))
    (hhe : hres.expression = none) :
    generate_and_validate openaiProvider ollamaProvider check premise hypothesis
        label annotation_model (k + 1) s = (.ok (some e, none, true), s2) ∧
    validate_expressions_are_contradictory check (some e) none = false := by
  constructor
  · have h := loop_accepts_first_success
      (fun st text model ctx =>
        ollama_generate_from_template ollamaProvider st text model ctx)
      check premise hypothesis label annotation_model hlabel k none none none
      s s1 s2 pres hres e hg hpe hne hg2
    rw [hhe] at h
    simp only [generate_and_validate, hgpt, ho1, Bool.or_self, Bool.false_eq_true,
      if_false]
    exact h
  · simp [validate_expressions_are_contradictory]

/-- C10 witness: a provider that yields content on its first call and an
empty payload afterwards. -/
theorem genval_null_hypothesis_accepted_witness :
    generate_and_validate (fun (n : Nat) _ _ => (Except.ok none, n + 1))
        (fun (n : Nat) _ _ =>
          ((if n = 0 then Except.ok (some (strToM "(a b)")) else Except.ok none),
            n + 1))
        (fun _ _ => Except.ok false) (strToM "p") (strToM "h") (strToM "neutral")
        (strToM "gemma3:1b") 3 0 = (Except.ok (some (strToM "(a b)"), none, true), 2) ∧
    validate_expressions_are_contradictory (fun _ _ => Except.ok false)
        (some (strToM "(a b)")) none = false :=
  genval_null_hypothesis_accepted _ _ _ (strToM "p") (strToM "h")
    (strToM "neutral") (strToM "gemma3:1b") 2 0 1 2
    ⟨some (strToM "(a b)"), none⟩ ⟨none, some .NO_CONTENT⟩ (strToM "(a b)")
    (by decide) (by decide) (by decide) rfl rfl (by decide) rfl rfl

/-! ### C5: the backend-call budget of the retry orchestrator -/

theorem openai_generate_count {σ : Type} (provider : Provider σ) (ms : Nat × σ)
    (text model : MStr) (ctx : Option MStr) :
    ((openai_generate_from_template (countingProvider provider) ms text model ctx).2).1 =
      ms.1 + 1 := by
  rcases hp : provider ms.2 model (withAdditionalContext (userContentTemplate text) ctx)
    with ⟨r, s'⟩
  rcases r with e | cont <;>
    simp [openai_generate_from_template, countingProvider, hp]

theorem ollama_generate_count {σ : Type} (provider : Provider σ) (ms : Nat × σ)
    (text model : MStr) (ctx : Option MStr) :
    ((ollama_generate_from_template (countingProvider provider) ms text model ctx).2).1 =
      ms.1 + 1 := by
  rcases hp : provider ms.2 model (withAdditionalContext (userContentTemplate text) ctx)
    with ⟨r, s'⟩
  rcases r with e | cont <;>
    simp [ollama_generate_from_template, countingProvider, hp]

theorem loop_count_bound {σ : Type}
    (gen : (Nat × σ) → MStr → MStr → Option MStr →
      Except PyError GenerationResult × (Nat × σ))
    (check : MStr → MStr → Except PyError Bool) (prem hyp label model : MStr)
    (hgen : ∀ (ms : Nat × σ) (t : MStr) (c : Option MStr),
      ((gen ms t model c).2).1 = ms.1 + 1) :
    ∀ (n : Nat) (ctx lastP lastH : Option MStr) (ms : Nat × σ),
      ((generate_and_validate_loop gen check prem hyp label model n
          ctx lastP lastH ms).2).1 ≤ ms.1 + 2 * n := by
  intro n
  induction n with
  | zero =>
    intro ctx lP lH ms
    simp [generate_and_validate_loop]
  | succ n ih =>
    intro ctx lP lH ms
    have h1 := hgen ms prem ctx
    rcases hg : gen ms prem model ctx with ⟨r1, s1⟩
    rw [hg] at h1
    replace h1 : s1.1 = ms.1 + 1 := h1
    rcases r1 with e | pres
    · simp only [generate_and_validate_loop, hg]
      show s1.1 ≤ ms.1 + 2 * (n + 1)
      omega
    · rcases hpe : pres.expression with _ | pExpr
      · simp only [generate_and_validate_loop, hg, hpe]
        have := ih ctx lP lH s1
        omega
      · by_cases hemp : pExpr = []
        · simp only [generate_and_validate_loop, hg, hpe, if_pos hemp]
          have := ih ctx lP lH s1
          omega
        · have h2 := hgen s1 hyp
            (some (withAdditionalContext (mettaHypothesisContext prem hyp pExpr) ctx))
          rcases hg2 : gen s1 hyp model
              (some (withAdditionalContext (mettaHypothesisContext prem hyp pExpr) ctx))
            with ⟨r2, s2⟩
          rw [hg2] at h2
          replace h2 : s2.1 = s1.1 + 1 := h2
          rcases r2 with e2 | hres
          · simp only [generate_and_validate_loop, hg, hpe, if_neg hemp, hg2]
            show s2.1 ≤ ms.1 + 2 * (n + 1)
            omega
          · simp only [generate_and_validate_loop, hg, hpe, if_neg hemp, hg2]
            split
            · show s2.1 ≤ ms.1 + 2 * (n + 1)
              omega
            · have := ih (some (retryAdditionalContext prem hyp (some pExpr) hres.expression))
                (some pExpr) hres.expression s2
              omega

/-- C5: for every attempt budget `k`, one call to `generate_and_validate`
reaches the generation provider at most `2 * k` times (one premise call per
attempt, plus one hypothesis call only when premise extraction produced an
expression); the loop itself is structural recursion on the `k` remaining
attempts, hence returns within `k` iterations. -/
theorem genval_backend_call_bound {σ : Type}
    (openaiProvider ollamaProvider : Provider σ)
    (check : MStr → MStr → Except PyError Bool)
    (premise hypothesis label annotation_model : MStr) (k : Nat) (s : σ) :
    ((generate_and_validate (countingProvider openaiProvider)
        (countingProvider ollamaProvider) check premise hypothesis label
        annotation_model k (0, s)).2).1 ≤ 2 * k := by
  simp only [generate_and_validate]
  refine le_trans
    (loop_count_bound _ check premise hypothesis label annotation_model ?_ k
      none none none (0, s)) (by simp)
  intro ms t c
  by_cases hio : (pyStartswith annotation_model (strToM "gpt") ||
      pyStartswith annotation_model (strToM "o1")) = true
  · simp only [hio, if_true]
    exact openai_generate_count openaiProvider ms t annotation_model c
  · simp only [Bool.not_eq_true] at hio
    simp only [hio, Bool.false_eq_true, if_false]
    exact ollama_generate_count ollamaProvider ms t annotation_model c

/-! ### C8: the batch runner -/

theorem pySlice_take {α : Type} (l : List α) (s i b : Nat) (hl : l.length ≤ s) :
    pySlice l i (min s (i + b)) = (l.drop i).take b := by
  unfold pySlice
  rcases le_or_lt (i + b) s with h | h
  · rw [min_eq_right h, Nat.add_sub_cancel_left]
  · rw [min_eq_left (le_of_lt h)]
    have h1 : (l.drop i).length ≤ s - i := by
      rw [List.length_drop]; omega
    have h2 : (l.drop i).length ≤ b := by
      rw [List.length_drop]; omega
    rw [List.take_of_length_le h1, List.take_of_length_le h2]

theorem foldl_append_eq_flatten {β : Type} (g : Nat → List β) :
    ∀ (xs : List Nat) (acc : List β),
      xs.foldl (fun a i => a ++ g i) acc = acc ++ (xs.map g).flatten := by
  intro xs
  induction xs with
  | nil => intro acc; simp
  | cons x xs ih => intro acc; simp [ih, List.append_assoc]

theorem pyRange_chunks_flatten_aux {α : Type} (b : Nat) (hb : 0 < b) :
    ∀ (n : Nat) (l : List α), l.length ≤ n →
      ((pyRange l.length b).map (fun i => (l.drop i).take b)).flatten = l := by
  intro n
  induction n with
  | zero =>
    intro l hl
    have hnil : l = [] := List.eq_nil_of_length_eq_zero (Nat.le_zero.mp hl)
    subst hnil
    simp [pyRange]
  | succ n ih =>
    intro l hl
    rcases eq_or_ne l [] with rfl | hne
    · simp [pyRange]
    · have hlen : 0 < l.length := List.length_pos.mpr hne
      have hcount : (l.length + b - 1) / b = (l.length - 1) / b + 1 := by
        have heq : l.length + b - 1 = (l.length - 1) + b := by omega
        rw [heq, Nat.add_div_right _ hb]
      have hcount2 : ((l.drop b).length + b - 1) / b = (l.length - 1) / b := by
        rw [List.length_drop]
        rcases le_or_lt l.length b with hle | hlt
        · have h0 : l.length - b = 0 := by omega
          rw [h0]
          rw [Nat.div_eq_of_lt (by omega), Nat.div_eq_of_lt (by omega)]
        · have heq1 : l.length - b + b - 1 = (l.length - b - 1) + b := by omega
          have heq2 : l.length - 1 = (l.length - b - 1) + b := by omega
          rw [heq1, heq2, Nat.add_div_right _ hb]
      have hrange : pyRange l.length b =
          0 :: (pyRange (l.drop b).length b).map (fun i => i + b) := by
        rw [pyRange, pyRange, hcount, hcount2, List.range_succ_eq_map]
        simp [List.map_map, Function.comp, Nat.succ_mul]
      rw [hrange]
      simp only [List.map_cons, List.flatten_cons, List.drop_zero]
      have hshift :
          ((pyRange (l.drop b).length b).map (fun i => i + b)).map
              (fun i => (l.drop i).take b) =
            (pyRange (l.drop b).length b).map
              (fun i => ((l.drop b).drop i).take b) := by
        rw [List.map_map]
        refine List.map_eq_map_iff.mpr (fun i _ => ?_)
        simp [List.drop_drop, Nat.add_comm]
      rw [hshift, ih (l.drop b) (by rw [List.length_drop]; omega)]
      exact List.take_append_drop b l

theorem pyRange_chunks_flatten {α : Type} (b : Nat) (hb : 0 < b) (l : List α) :
    ((pyRange l.length b).map (fun i => (l.drop i).take b)).flatten = l :=
  pyRange_chunks_flatten_aux b hb l.length l le_rfl

/-- C8: for every positive `batch_size`, the batch runner applies
`process_fn` to exactly the first `min(length, subset_size)` rows, in the
original input order — its result is the map of `process_fn` over the
truncated prefix, obtained from the consecutive
`rows_to_process[i : min(subset_size, i + batch_size)]` chunks (each of size
`batch_size` except a possibly shorter last one). -/
theorem process_in_batches_prefix_map {α β : Type} (rows : List α)
    (process_fn : α → β) (subset_size batch_size : Nat)
    (hb : 0 < batch_size) :
    process_in_batches rows process_fn subset_size batch_size =
      Except.ok ((rows.take subset_size).map process_fn) := by
  unfold process_in_batches
  rw [if_neg (Nat.pos_iff_ne_zero.mp hb)]
  show Except.ok
      ((pyRange (rows.take subset_size).length batch_size).foldl
        (fun processed_rows i =>
          processed_rows ++
            (pySlice (rows.take subset_size) i
              (min subset_size (i + batch_size))).map process_fn)
        []) =
    Except.ok ((rows.take subset_size).map process_fn)
  congr 1
  rw [foldl_append_eq_flatten
    (fun i => (pySlice (rows.take subset_size) i
      (min subset_size (i + batch_size))).map process_fn)
    (pyRange (rows.take subset_size).length batch_size) []]
  rw [List.nil_append]
  have hsl : (rows.take subset_size).length ≤ subset_size := by
    simp [List.length_take]
  have hmaps :
      (pyRange (rows.take subset_size).length batch_size).map
          (fun i => (pySlice (rows.take subset_size) i
            (min subset_size (i + batch_size))).map process_fn) =
        ((pyRange (rows.take subset_size).length batch_size).map
          (fun i => ((rows.take subset_size).drop i).take batch_size)).map
            (List.map process_fn) := by
    rw [List.map_map]
    refine List.map_eq_map_iff.mpr (fun i _ => ?_)
    rw [Function.comp_apply, pySlice_take (rows.take subset_size) subset_size i batch_size hsl]
  rw [hmaps, ← List.map_flatten, pyRange_chunks_flatten batch_size hb]

/-- C8 witness: 10 rows, `subset_size = 5`, `batch_size = 2` — the five
prefix rows are processed, in order. -/
theorem process_in_batches_prefix_map_witness :
    process_in_batches (List.range 10) (fun n => n + 100) 5 2 =
      Except.ok (((List.range 10).take 5).map (fun n => n + 100)) :=
  process_in_batches_prefix_map (List.range 10) (fun n => n + 100) 5 2
    (by decide)

/-! ### C6 and C7: the annotation store merge -/

/-- C6: whenever the annotation asset fails — in particular when the
candidate rows fail the schema validation at the store merge — nothing is
persisted: the on-disk store content is exactly what it was before the run.
The `write_parquet` call sits strictly after `Annotations.validate` on the
success path. -/
theorem annotations_error_leaves_store
    (openaiProvider ollamaProvider : Provider Unit)
    (check : MStr → MStr → Except PyError Bool)
    (validateSchema : List AnnotationRow → Option PyError)
    (subset_size batch_size : Nat) (annotation_model : MStr)
    (preprocessed_training_data : List SourceRow)
    (cached_annotations store : List AnnotationRow) (e : PyError)
    (h : (data_annotations openaiProvider ollamaProvider check validateSchema
        subset_size batch_size annotation_model preprocessed_training_data
        cached_annotations store).1 = Except.error e) :
    (data_annotations openaiProvider ollamaProvider check validateSchema
        subset_size batch_size annotation_model preprocessed_training_data
        cached_annotations store).2 = store := by
  simp only [data_annotations] at h ⊢
  split at h
  · rfl
  · split at h
    · rfl
    · split at h
      · rfl
      · simp at h

/-- C6 witness: a schema validator that rejects the candidate batch; the
store stays empty and the asset reports the schema error. -/
theorem annotations_error_leaves_store_witness :
    (data_annotations (fun (_ : Unit) _ _ => (Except.ok none, ()))
        (fun (_ : Unit) _ _ => (Except.ok none, ()))
        (fun _ _ => Except.ok false) (fun _ => some ⟨"SchemaError"⟩) 1 1
        (strToM "m") [⟨0, strToM "p", strToM "h", strToM "neutral"⟩] [] []).2 = [] :=
  annotations_error_leaves_store _ _ _ _ 1 1 (strToM "m")
    [⟨0, strToM "p", strToM "h", strToM "neutral"⟩] [] [] ⟨"SchemaError"⟩ rfl

theorem zipWith_map_index (l1 : List SourceRow)
    (l2 : List (Option MStr × Option MStr × Bool)) :
    (List.zipWith
        (fun (r : SourceRow) (g : Option MStr × Option MStr × Bool) =>
          AnnotationRow.mk r.index r.premise r.hypothesis r.label
            g.1 g.2.1 g.2.2 DATA_VERSION) l1 l2).map AnnotationRow.index =
      (l1.take l2.length).map SourceRow.index := by
  induction l1 generalizing l2 with
  | nil => simp
  | cons a l1 ih =>
    cases l2 with
    | nil => simp
    | cons b l2 => simp [ih]

/-- C7 counterexample: a candidate batch whose two rows share the index `0`
(none of which is present in the empty existing set) is merged into a record
set with a duplicate index — the pre-filter only removes indices already in
the existing set, it does not deduplicate within the batch. -/
theorem annotations_duplicate_index_counterexample :
    Except.map (List.map AnnotationRow.index)
        (data_annotations (fun (_ : Unit) _ _ => (Except.ok none, ()))
          (fun (_ : Unit) _ _ => (Except.ok none, ()))
          (fun _ _ => Except.ok false) (fun _ => none) 2 1 (strToM "m")
          [⟨0, strToM "p", strToM "h", strToM "neutral"⟩,
            ⟨0, strToM "q", strToM "i", strToM "neutral"⟩] [] []).1 =
      Except.ok [0, 0] ∧
    ¬ ([0, 0] : List Nat).Nodup := by
  exact ⟨rfl, by decide⟩

/-- C7 (amended): if the existing annotation set has pairwise-distinct
indices and the candidate batch also has pairwise-distinct indices, then the
merged record set produced by the annotation asset has no duplicate index:
candidates are pre-filtered to indices absent from the existing set, and the
union of the two sets therefore preserves uniqueness. -/
theorem annotations_merge_nodup_index
    (openaiProvider ollamaProvider : Provider Unit)
    (check : MStr → MStr → Except PyError Bool)
    (validateSchema : List AnnotationRow → Option PyError)
    (subset_size batch_size : Nat) (annotation_model : MStr)
    (preprocessed_training_data : List SourceRow)
    (cached_annotations store : List AnnotationRow)
    (result : List AnnotationRow)
    (hex : (cached_annotations.map AnnotationRow.index).Nodup)
    (hcand : (preprocessed_training_data.map SourceRow.index).Nodup)
    (hok : (data_annotations openaiProvider ollamaProvider check validateSchema
        subset_size batch_size annotation_model preprocessed_training_data
        cached_annotations store).1 = Except.ok result) :
    (result.map AnnotationRow.index).Nodup := by
  simp only [data_annotations] at hok
  split at hok
  · simp at hok
  · split at hok
    · simp at hok
    · split at hok
      · simp at hok
      · have hres := Except.ok.inj hok
        subst hres
        rw [List.map_append, zipWith_map_index]
        refine List.Nodup.append hex ?_ ?_
        · exact List.Nodup.sublist
            (List.Sublist.map _
              (((List.take_sublist _ _).trans (List.take_sublist _ _)).trans
                (List.filter_sublist _))) hcand
        · intro x hx hx2
          have hx3 : x ∈ (preprocessed_training_data.filter
              (fun r => decide
                (r.index ∉ cached_annotations.map AnnotationRow.index))).map
                SourceRow.index :=
            (List.Sublist.map SourceRow.index
              ((List.take_sublist _ _).trans (List.take_sublist _ _))).subset hx2
          obtain ⟨a, ha, rfl⟩ := List.mem_map.mp hx3
          have hpred := (List.mem_filter.mp ha).2
          exact (of_decide_eq_true hpred) hx

/-- C7 witness: one cached row with index 5 merged with two fresh candidate
rows with indices 0 and 1. -/
theorem annotations_merge_nodup_index_witness :
    (([⟨5, strToM "c", strToM "d", strToM "neutral", none, none, false, DATA_VERSION⟩,
        ⟨0, strToM "p", strToM "h", strToM "neutral", none, none, false, DATA_VERSION⟩,
        ⟨1, strToM "q", strToM "i", strToM "neutral", none, none, false, DATA_VERSION⟩] :
          List AnnotationRow).map AnnotationRow.index).Nodup :=
  annotations_merge_nodup_index (fun (_ : Unit) _ _ => (Except.ok none, ()))
    (fun (_ : Unit) _ _ => (Except.ok none, ()))
    (fun _ _ => Except.ok false) (fun _ => none) 2 1 (strToM "m")
    [⟨0, strToM "p", strToM "h", strToM "neutral"⟩,
      ⟨1, strToM "q", strToM "i", strToM "neutral"⟩]
    [⟨5, strToM "c", strToM "d", strToM "neutral", none, none, false, DATA_VERSION⟩]
    [] _ (by decide) (by decide) rfl
